import Mathlib

/-!
Shallow embedding of `ftx_client.py` (FtxClient): request signing,
response normalization, credential validation, and the pure data
mappings of the domain methods.  Bytes are modelled as `Nat` values
below 256, byte strings as `List Nat`, Python floats as `ℚ`, and the
nondeterministic millisecond timestamp `int(time.time() * 1000)` as an
explicit `Nat` parameter.
-/

namespace Ftx

/-! ## Bitwise arithmetic on machine words (`Nat` with explicit masking) -/

/-- `2 ^ 32`, the modulus of 32-bit words. -/
def M32 : Nat := 4294967296

/-- Truncate to a 32-bit word. -/
def mask32 (n : Nat) : Nat := n % M32

/-- Combine the low `fuel` bits of `x` and `y` with the boolean function `f`. -/
def bitsOp (f : Bool → Bool → Bool) : Nat → Nat → Nat → Nat
  | 0, _, _ => 0
  | fuel + 1, x, y =>
      (if f (x % 2 == 1) (y % 2 == 1) then 1 else 0) + 2 * bitsOp f fuel (x / 2) (y / 2)

/-- 32-bit exclusive or. -/
def xor32 (x y : Nat) : Nat := bitsOp xor 32 x y

/-- 32-bit bitwise and. -/
def and32 (x y : Nat) : Nat := bitsOp and 32 x y

/-- 32-bit bitwise complement. -/
def not32 (x : Nat) : Nat := M32 - 1 - mask32 x

/-- Exclusive or on single bytes (used by the HMAC key padding). -/
def xorByte (x y : Nat) : Nat := bitsOp xor 8 x y

/-- Rotate a 32-bit word right by `n` bits. -/
def rotr32 (n x : Nat) : Nat := mask32 (x / 2 ^ n + x % 2 ^ n * 2 ^ (32 - n))

/-- Shift a 32-bit word right by `n` bits. -/
def shr32 (n x : Nat) : Nat := x / 2 ^ n

/-! ## SHA-256 (FIPS 180-4), the hash behind `hmac.new(..., 'sha256')` -/

/-- SHA-256 initial hash value. -/
def sha256H0 : List Nat :=
  [1779033703, 3144134277, 1013904242, 2773480762,
   1359893119, 2600822924, 528734635, 1541459225]

/-- SHA-256 round constants. -/
def sha256K : List Nat :=
  [1116352408, 1899447441, 3049323471, 3921009573,
   961987163, 1508970993, 2453635748, 2870763221,
   3624381080, 310598401, 607225278, 1426881987,
   1925078388, 2162078206, 2614888103, 3248222580,
   3835390401, 4022224774, 264347078, 604807628,
   770255983, 1249150122, 1555081692, 1996064986,
   2554220882, 2821834349, 2952996808, 3210313671,
   3336571891, 3584528711, 113926993, 338241895,
   666307205, 773529912, 1294757372, 1396182291,
   1695183700, 1986661051, 2177026350, 2456956037,
   2730485921, 2820302411, 3259730800, 3345764771,
   3516065817, 3600352804, 4094571909, 275423344,
   430227734, 506948616, 659060556, 883997877,
   958139571, 1322822218, 1537002063, 1747873779,
   1955562222, 2024104815, 2227730452, 2361852424,
   2428436474, 2756734187, 3204031479, 3329325298]

/-- Big-endian 8-byte encoding of a length in bits. -/
def be64Bytes (n : Nat) : List Nat :=
  [n / 2 ^ 56 % 256, n / 2 ^ 48 % 256, n / 2 ^ 40 % 256, n / 2 ^ 32 % 256,
   n / 2 ^ 24 % 256, n / 2 ^ 16 % 256, n / 2 ^ 8 % 256, n % 256]

/-- Big-endian 4-byte encoding of a 32-bit word. -/
def be32Bytes (w : Nat) : List Nat :=
  [w / 2 ^ 24 % 256, w / 2 ^ 16 % 256, w / 2 ^ 8 % 256, w % 256]

/-- SHA-256 padding: append `0x80`, zeros, and the 64-bit message bit length. -/
def padMessage (msg : List Nat) : List Nat :=
  let l := msg.length
  let r := (l + 1) % 64
  let k := (120 - r) % 64
  msg ++ 0x80 :: (List.replicate k 0 ++ be64Bytes (8 * l))

/-- Group bytes into big-endian 32-bit words. -/
def bytesToWords : List Nat → List Nat
  | b1 :: b2 :: b3 :: b4 :: rest =>
      (((b1 * 256 + b2) * 256 + b3) * 256 + b4) :: bytesToWords rest
  | _ => []

/-- Extend a 16-word block to the 64-word message schedule (`fuel` more words). -/
def extendSchedule : Nat → List Nat → List Nat
  | 0, w => w
  | fuel + 1, w =>
      let i := w.length
      let w15 := w.getD (i - 15) 0
      let w2 := w.getD (i - 2) 0
      let s0 := xor32 (xor32 (rotr32 7 w15) (rotr32 18 w15)) (shr32 3 w15)
      let s1 := xor32 (xor32 (rotr32 17 w2) (rotr32 19 w2)) (shr32 10 w2)
      extendSchedule fuel (w ++ [mask32 (w.getD (i - 16) 0 + s0 + w.getD (i - 7) 0 + s1)])

/-- One SHA-256 compression round on the state `[a, b, c, d, e, f, g, h]`. -/
def sha256Round (st : List Nat) (k w : Nat) : List Nat :=
  match st with
  | [a, b, c, d, e, f, g, h] =>
      let s1 := xor32 (xor32 (rotr32 6 e) (rotr32 11 e)) (rotr32 25 e)
      let ch := xor32 (and32 e f) (and32 (not32 e) g)
      let temp1 := mask32 (h + s1 + ch + k + w)
      let s0 := xor32 (xor32 (rotr32 2 a) (rotr32 13 a)) (rotr32 22 a)
      let maj := xor32 (xor32 (and32 a b) (and32 a c)) (and32 b c)
      let temp2 := mask32 (s0 + maj)
      [mask32 (temp1 + temp2), a, b, c, mask32 (d + temp1), e, f, g]
  | other => other

/-- Compress one 64-byte block into the running hash state. -/
def sha256Compress (h : List Nat) (block : List Nat) : List Nat :=
  let w := extendSchedule 48 (bytesToWords block)
  let st := (sha256K.zip w).foldl (fun st kw => sha256Round st kw.1 kw.2) h
  List.zipWith (fun x y => mask32 (x + y)) h st

/-- Split a byte string into 64-byte blocks (`fuel` bounds the recursion). -/
def chunks64 : Nat → List Nat → List (List Nat)
  | 0, _ => []
  | _, [] => []
  | fuel + 1, l => l.take 64 :: chunks64 fuel (l.drop 64)

/-- SHA-256 of a byte string, as a 32-byte string. -/
def sha256 (msg : List Nat) : List Nat :=
  let padded := padMessage msg
  ((chunks64 padded.length padded).foldl sha256Compress sha256H0).flatMap be32Bytes

/-! ## HMAC-SHA256 (RFC 2104), as computed by `hmac.new(key, msg, 'sha256')` -/

/-- HMAC-SHA256 of `msg` under `key`, as a 32-byte string. -/
def hmacSha256 (key msg : List Nat) : List Nat :=
  let k0 := if 64 < key.length then sha256 key else key
  let k := k0 ++ List.replicate (64 - k0.length) 0
  let ipad := k.map (fun b => xorByte b 0x36)
  let opad := k.map (fun b => xorByte b 0x5c)
  sha256 (opad ++ sha256 (ipad ++ msg))

/-- Lowercase hexadecimal digit. -/
def hexLowerChar (n : Nat) : Char :=
  Char.ofNat (if n < 10 then 48 + n else 87 + n)

/-- Lowercase hexadecimal encoding of a byte string, as `bytes.hex()` /
`HMAC.hexdigest()` produce. -/
def hexDigest (bytes : List Nat) : String :=
  String.mk (bytes.flatMap (fun b => [hexLowerChar (b / 16), hexLowerChar (b % 16)]))

/-! ## UTF-8 encoding, modelling Python `str.encode()` -/

/-- UTF-8 encoding of a single code point. -/
def utf8EncodeCp (n : Nat) : List Nat :=
  if n < 0x80 then [n]
  else if n < 0x800 then [0xc0 + n / 64, 0x80 + n % 64]
  else if n < 0x10000 then [0xe0 + n / 4096, 0x80 + n / 64 % 64, 0x80 + n % 64]
  else [0xf0 + n / 262144, 0x80 + n / 4096 % 64, 0x80 + n / 64 % 64, 0x80 + n % 64]

/-- UTF-8 encoding of a string, modelling `str.encode()`. -/
def utf8Encode (s : String) : List Nat :=
  s.data.flatMap (fun c => utf8EncodeCp c.toNat)

/-! ## Percent-encoding, modelling `urllib.parse.quote` / `unquote` -/

/-- Uppercase hexadecimal digit, as `urllib.parse.quote` emits. -/
def hexUpperChar (n : Nat) : Char :=
  Char.ofNat (if n < 10 then 48 + n else 55 + n)

/-- Bytes `urllib.parse.quote` leaves unescaped with its default
`safe='/'`: ASCII letters, digits, `_ . - ~` and `/`. -/
def quoteSafeByte (b : Nat) : Bool :=
  (65 ≤ b && b ≤ 90) || (97 ≤ b && b ≤ 122) || (48 ≤ b && b ≤ 57) ||
    b == 95 || b == 46 || b == 45 || b == 126 || b == 47

/-- Percent-encode one byte (given a safe-byte predicate). -/
def quoteByte (safe : Nat → Bool) (b : Nat) : List Char :=
  if safe b then [Char.ofNat b] else ['%', hexUpperChar (b / 16), hexUpperChar (b % 16)]

/-- `urllib.parse.quote` over the UTF-8 bytes of a name, as characters. -/
def quoteChars (bytes : List Nat) : List Char :=
  bytes.flatMap (quoteByte quoteSafeByte)

/-- `urllib.parse.quote` with its default `safe='/'`, as a string. -/
def pyQuote (s : String) : String :=
  String.mk (quoteChars (utf8Encode s))

/-- Value of a hexadecimal digit character, if it is one. -/
def hexVal (c : Char) : Option Nat :=
  if 48 ≤ c.toNat && c.toNat ≤ 57 then some (c.toNat - 48)
  else if 97 ≤ c.toNat && c.toNat ≤ 102 then some (c.toNat - 87)
  else if 65 ≤ c.toNat && c.toNat ≤ 70 then some (c.toNat - 55)
  else none

/-- One decoding step per unit of fuel; with fuel at least the length of
the input (each step consumes at least one character) this is total. -/
def unquoteCharsAux : Nat → List Char → List Nat
  | 0, _ => []
  | _ + 1, [] => []
  | fuel + 1, c :: rest =>
      if c = '%' then
        match rest with
        | c1 :: c2 :: rest2 =>
            match hexVal c1, hexVal c2 with
            | some h, some l => (16 * h + l) :: unquoteCharsAux fuel rest2
            | _, _ => c.toNat :: unquoteCharsAux fuel rest
        | _ => c.toNat :: unquoteCharsAux fuel rest
      else c.toNat :: unquoteCharsAux fuel rest

/-- Percent-decoding to bytes, modelling `urllib.parse.unquote`: each `%`
followed by two hex digits becomes one byte; anything else passes through. -/
def unquoteChars (cs : List Char) : List Nat :=
  unquoteCharsAux cs.length cs

/-- Bytes `urllib.parse.quote_plus` with `safe=''` leaves unescaped
(the quoting used by `urlencode` for query parameters). -/
def quotePlusSafeByte (b : Nat) : Bool :=
  (65 ≤ b && b ≤ 90) || (97 ≤ b && b ≤ 122) || (48 ≤ b && b ≤ 57) ||
    b == 95 || b == 46 || b == 45 || b == 126

/-- `urllib.parse.quote_plus`: spaces become `+`, other unsafe bytes `%XX`. -/
def pyQuotePlus (s : String) : String :=
  String.mk (utf8Encode s |>.flatMap fun b =>
    if b == 32 then ['+'] else quoteByte quotePlusSafeByte b)

/-! ## Python values: the payload dictionaries the client builds -/

/-- The Python values this client puts in parameter dictionaries:
strings, ints, floats, booleans and `None` (no nested containers occur). -/
inductive PyValue where
  | str (s : String)
  | int (n : Int)
  | float (q : ℚ)
  | bool (b : Bool)
  | noneV
deriving DecidableEq, Repr

/-- Python truthiness of a `PyValue` (`bool(v)`). -/
def pyTruthy : PyValue → Bool
  | .str s => !(s == "")
  | .int n => !(n == 0)
  | .float q => !(q == 0)
  | .bool b => b
  | .noneV => false

/-- Python `isinstance(v, str)`. -/
def pyIsStr : PyValue → Bool
  | .str _ => true
  | _ => false

/-- Decimal digits of the fraction `r / d` (with `r < d`), most
significant first, stopping at zero (bounded by `fuel`). -/
def fracDigits : Nat → Nat → Nat → List Char
  | 0, _, _ => []
  | fuel + 1, r, d =>
      if r = 0 then []
      else Char.ofNat (48 + r * 10 / d) :: fracDigits fuel (r * 10 % d) d

/-- Python `repr` of a float with an exact short decimal expansion
(e.g. `1.5`, `2.0`), which is what `json.dumps` and `str()` print for
the sizes this client handles. -/
def floatRepr (q : ℚ) : String :=
  let n := q.num.natAbs
  let ip := n / q.den
  let frac := fracDigits 17 (n % q.den) q.den
  (if q.num < 0 then "-" else "") ++ toString ip ++ "." ++
    (if frac.isEmpty then "0" else String.mk frac)

/-- Python `str()` of a scalar value, as `urlencode` applies to query
parameter values. -/
def pyStr : PyValue → String
  | .str s => s
  | .int n => toString n
  | .float q => floatRepr q
  | .bool b => if b then "True" else "False"
  | .noneV => "None"

/-- Escape a string for a JSON string literal (quote and backslash; the
strings this client sends contain no control characters). -/
def jsonEscape (s : String) : String :=
  String.mk (s.data.flatMap fun c =>
    if c = '"' || c = '\\' then ['\\', c] else [c])

/-- `json.dumps` of a scalar value with default options. -/
def jsonDumpsVal : PyValue → String
  | .str s => "\"" ++ jsonEscape s ++ "\""
  | .int n => toString n
  | .float q => floatRepr q
  | .bool b => if b then "true" else "false"
  | .noneV => "null"

/-- `json.dumps` of a flat dictionary with default separators
`(', ', ': ')`, preserving insertion order as Python 3.7+ dicts do. -/
def jsonDumpsObj (fields : List (String × PyValue)) : String :=
  "\x7b" ++ String.intercalate ", "
    (fields.map fun kv => "\"" ++ jsonEscape kv.1 ++ "\": " ++ jsonDumpsVal kv.2) ++ "\x7d"

/-! ## JSON values and response normalization (`_process_response`) -/

/-- A parsed JSON value, as `response.json()` returns. -/
inductive Json where
  | null
  | bool (b : Bool)
  | num (q : ℚ)
  | str (s : String)
  | arr (elems : List Json)
  | obj (fields : List (String × Json))

/-- Python exceptions the response path can raise. -/
inductive PyErr where
  | valueError (msg : String)
  | httpError (status : Nat)
  | keyError (key : String)
  | typeError (msg : String)
  | exception (val : Json)

/-- An HTTP response: its status code and the result of attempting to
parse its body as JSON (`none` models a `ValueError` from `.json()`). -/
structure Response where
  statusCode : Nat
  json : Option Json

/-- Python truthiness of a parsed JSON value (`not data['success']`
tests the negation of this). -/
def jsonTruthy : Json → Bool
  | .null => false
  | .bool b => b
  | .num q => !(q == 0)
  | .str s => !(s == "")
  | .arr elems => !elems.isEmpty
  | .obj fields => !fields.isEmpty

/-- Python subscription `data[key]`: a `KeyError` when the key is absent,
a `TypeError` when the value is not a dict. -/
def pyGetItem (data : Json) (key : String) : Except PyErr Json :=
  match data with
  | .obj fields =>
      match fields.lookup key with
      | some v => .ok v
      | none => .error (.keyError key)
  | _ => .error (.typeError "not subscriptable")

/-- Message of the `ValueError` raised by `response.json()` on a
non-JSON body. -/
def jsonDecodeErrMsg : String := "Expecting value"

/-- `response.raise_for_status()` raises an `HTTPError` exactly for
status codes in [400, 600). -/
def raiseForStatus (status : Nat) : Except PyErr Unit :=
  if 400 ≤ status && status < 600 then .error (.httpError status) else .ok ()

/-- `FtxClient._process_response`: try `response.json()`; on failure run
`raise_for_status()` and re-raise the decode error; otherwise unwrap the
`{success, result|error}` envelope. -/
def processResponse (resp : Response) : Except PyErr Json :=
  match resp.json with
  | none =>
      match raiseForStatus resp.statusCode with
      | .error e => .error e
      | .ok _ => .error (.valueError jsonDecodeErrMsg)
  | some data =>
      match pyGetItem data "success" with
      | .error e => .error e
      | .ok s =>
          if jsonTruthy s then pyGetItem data "result"
          else
            match pyGetItem data "error" with
            | .error e => .error e
            | .ok errVal => .error (.exception errVal)

/-! ## Client construction (`__init__`, `_validate_api_credentials`) -/

/-- `FtxClient._validate_api_credentials`, checking key then secret,
emptiness (falsiness) before type. -/
def validateApiCredentials (key secret : PyValue) : Except String Unit :=
  if !pyTruthy key then .error "API key cannot be empty."
  else if !pyIsStr key then .error "API key must be in a valid string format."
  else if !pyTruthy secret then .error "API secret cannot be empty."
  else if !pyIsStr secret then .error "API secret must be in a valid string format."
  else .ok ()

/-- The state an `FtxClient` holds after construction (the HTTP session
object carries no data of its own). -/
structure FtxClient where
  apiEndpoint : String
  apiKey : String
  apiSecret : String
  subaccountName : Option String

/-- `FtxClient.__init__`: validate the credentials, then store them.
The stored key and secret are the string payloads of the validated
arguments (validation guarantees they are strings; the final catch-all
branch is unreachable). -/
def initFtxClient (apiEndpoint : String) (apiKey apiSecret : PyValue)
    (subaccountName : Option String) : Except String FtxClient :=
  match validateApiCredentials apiKey apiSecret with
  | .error e => .error e
  | .ok _ =>
      match apiKey, apiSecret with
      | .str k, .str s => .ok ⟨apiEndpoint, k, s, subaccountName⟩
      | _, _ => .error "unreachable"

/-! ## Requests and preparation (`requests.Request` / `.prepare()`) -/

/-- A `requests.Request` as this client builds them: method, full URL,
optional query parameters (`params=` for GET), optional JSON body
(`json=` for POST), and headers. -/
structure Request where
  method : String
  url : String
  params : Option (List (String × PyValue))
  jsonBody : Option (List (String × PyValue))
  headers : List (String × String)

/-- The parts of a `PreparedRequest` the client reads: the uppercased
method, `path_url` (path and query, no scheme or host), and the
serialized body bytes. -/
structure Prepared where
  method : String
  pathUrl : String
  body : Option (List Nat)

/-- Skip a leading `scheme://` if present. -/
def afterScheme : List Char → Option (List Char)
  | ':' :: '/' :: '/' :: rest => some rest
  | _ :: rest => afterScheme rest
  | [] => none

/-- Drop the host: keep from the first `/` on. -/
def fromSlash : List Char → List Char
  | [] => []
  | '/' :: rest => '/' :: rest
  | _ :: rest => fromSlash rest

/-- The path component of a URL (`/` when the URL has no path), as
`PreparedRequest.path_url` exposes before the query string. -/
def pathOfUrl (url : String) : String :=
  match afterScheme url.data with
  | some rest =>
      match fromSlash rest with
      | [] => "/"
      | p => String.mk p
  | none => url

/-- `urlencode` of a parameter dict as `requests` applies it: parameters
whose value is `None` are dropped, keys and stringified values are
quoted with `quote_plus`. -/
def encodeQueryParams (ps : List (String × PyValue)) : String :=
  String.intercalate "&" (ps.filterMap fun kv =>
    match kv.2 with
    | .noneV => none
    | v => some (pyQuotePlus kv.1 ++ "=" ++ pyQuotePlus (pyStr v)))

/-- `Request.prepare()`, restricted to the fields the client reads:
uppercase the method, resolve `path_url` (path plus encoded query), and
serialize the JSON body to UTF-8 bytes.  Headers play no part. -/
def prepare (req : Request) : Prepared :=
  let query :=
    match req.params with
    | none => ""
    | some ps =>
        match encodeQueryParams ps with
        | "" => ""
        | q => "?" ++ q
  { method := req.method.toUpper
    pathUrl := pathOfUrl req.url ++ query
    body := req.jsonBody.map (fun j => utf8Encode (jsonDumpsObj j)) }

/-! ## Request signing (`_sign_request`) and dispatch (`_request`) -/

/-- The signature payload: `f'{ts}{prepared.method}{prepared.path_url}'`
encoded, with `prepared.body` appended when truthy (present and
non-empty). -/
def signaturePayload (ts : Nat) (p : Prepared) : List Nat :=
  utf8Encode (toString ts ++ p.method ++ p.pathUrl) ++
    (match p.body with
     | some b => if b.isEmpty then [] else b
     | none => [])

/-- `FtxClient._sign_request`: prepare the request, HMAC-SHA256 the
signature payload under the API secret, and attach the `FTX-KEY`,
`FTX-SIGN`, `FTX-TS` and (for a truthy configured subaccount name)
percent-encoded `FTX-SUBACCOUNT` headers.  The timestamp
`int(time.time() * 1000)` is the explicit parameter `ts`. -/
def signRequest (c : FtxClient) (ts : Nat) (req : Request) : Request :=
  let prepared := prepare req
  let signature := hexDigest (hmacSha256 (utf8Encode c.apiSecret) (signaturePayload ts prepared))
  { req with
      headers := req.headers ++
        [("FTX-KEY", c.apiKey), ("FTX-SIGN", signature), ("FTX-TS", toString ts)] ++
        (match c.subaccountName with
         | some nm => if nm = "" then [] else [("FTX-SUBACCOUNT", pyQuote nm)]
         | none => []) }

/-- Header lookup on a request (the dispatcher starts from empty
headers, so every key occurs at most once). -/
def getHeader (req : Request) (key : String) : Option String :=
  (req.headers.find? (fun kv => kv.1 == key)).map (·.2)

/-- The request `FtxClient._request` builds before signing:
`Request(method, self._api_endpoint + path, **kwargs)` with no headers. -/
def buildRequest (c : FtxClient) (method path : String)
    (params jsonBody : Option (List (String × PyValue))) : Request :=
  { method := method
    url := c.apiEndpoint ++ path
    params := params
    jsonBody := jsonBody
    headers := [] }

/-- `FtxClient._request` up to the wire: build, sign, and prepare the
request that is transmitted, returning the signed request (whose headers
carry the signature) and the prepared request actually sent. -/
def dispatchRequest (c : FtxClient) (ts : Nat) (method path : String)
    (params jsonBody : Option (List (String × PyValue))) : Request × Prepared :=
  let req := buildRequest c method path params jsonBody
  let signed := signRequest c ts req
  (signed, prepare signed)

/-! ## Futures helpers (`get_all_futures` and friends) -/

/-- The fields of an exchange future record this client reads. -/
structure Future where
  name : String
  underlying : String
  type : String
  enabled : Bool
  expired : Bool
  expiry : ℚ
deriving DecidableEq, Repr

/-- `get_all_futures`, applied to the list the exchange returned: keep
entries with `type == 'future'`, `enabled == True`, `expired == False`. -/
def getAllFutures (futures : List Future) : List Future :=
  futures.filter fun f => f.type == "future" && f.enabled == true && f.expired == false

/-- `get_all_underlying_futures`: the enabled, non-expired futures whose
`underlying` equals the given asset. -/
def getAllUnderlyingFutures (underlying : String) (futures : List Future) : List Future :=
  (getAllFutures futures).filter fun f => f.underlying == underlying

/-- Python `min(xs, key=k)`: `ValueError` on an empty sequence, else the
first element attaining the minimum key. -/
def pyMinBy (k : Future → ℚ) : List Future → Except String Future
  | [] => .error "min() arg is an empty sequence"
  | x :: xs => .ok (xs.foldl (fun best y => if k y < k best then y else best) x)

/-- `get_next_underlying_future`: minimum-expiry element of the filtered
futures. -/
def getNextUnderlyingFuture (underlying : String) (futures : List Future) :
    Except String Future :=
  pyMinBy (fun f => f.expiry) (getAllUnderlyingFutures underlying futures)

/-! ## Write payloads (`place_order`, `get_order_history`) -/

/-- The JSON body `place_order` hands to `_post('orders', ...)`, in the
source's key order.  Python's `None` defaults appear as `Option` inputs
mapped to `PyValue.noneV`. -/
def placeOrderPayload (market side : String) (size : ℚ) (price : Option ℚ)
    (type : String) (reduce_only ioc post_only : Bool)
    (client_id : Option String) : List (String × PyValue) :=
  [("market", .str market),
   ("side", .str side),
   ("price", match price with | some p => .float p | none => .noneV),
   ("size", .float size),
   ("type", .str type),
   ("reduceOnly", .bool reduce_only),
   ("ioc", .bool ioc),
   ("postOnly", .bool post_only),
   ("clientId", match client_id with | some cid => .str cid | none => .noneV)]

/-- `place_order` with only `market`, `side` and `size` passed: Python
fills the defaults `price=None`, `type='market'`, `reduce_only=False`,
`ioc=False`, `post_only=False`, `client_id=None`. -/
def placeOrderPayloadDefaults (market side : String) (size : ℚ) : List (String × PyValue) :=
  placeOrderPayload market side size none "market" false false false none

/-- The query-parameter dict `get_order_history` hands to
`_get('orders/history', ...)`, in the source's key order. -/
def getOrderHistoryParams (market side : Option String) (order_type : String)
    (start_time end_time : Option ℚ) : List (String × PyValue) :=
  [("market", match market with | some m => .str m | none => .noneV),
   ("side", match side with | some s => .str s | none => .noneV),
   ("orderType", .str order_type),
   ("start_time", match start_time with | some t => .float t | none => .noneV),
   ("end_time", match end_time with | some t => .float t | none => .noneV)]

/-- `get_order_history()` with no arguments: Python fills the defaults
`market=None`, `side=None`, `order_type='market'`, `start_time=None`,
`end_time=None`. -/
def getOrderHistoryParamsDefaults : List (String × PyValue) :=
  getOrderHistoryParams none none "market" none none

/-! ## Fixtures and small helpers used by the statements below -/

/-- A value that is a non-empty Python string (what credential
validation accepts). -/
def isNonEmptyStr : PyValue → Bool
  | .str s => !(s == "")
  | _ => false

/-- An enabled, non-expired BTC future with the given name and expiry. -/
def btcFuture (nm : String) (e : ℚ) : Future :=
  { name := nm, underlying := "BTC", type := "future"
    enabled := true, expired := false, expiry := e }

/-- The futures list of the spec's example: expiries 3000, 1000, 2000. -/
def btcFuturesExample : List Future :=
  [btcFuture "BTC-0929" 3000, btcFuture "BTC-0330" 1000, btcFuture "BTC-0628" 2000]

/-- The fold at the heart of `min(xs, key=...)`: the running best is
replaced only on a strictly smaller key, so the first minimum wins. -/
def pyFoldMin (k : Future → ℚ) (best : Future) (xs : List Future) : Future :=
  xs.foldl (fun b y => if k y < k b then y else b) best

/-! ## Sanity checks of the cryptographic layer against published vectors -/

set_option maxRecDepth 100000

set_option maxHeartbeats 3200000

theorem sha256_empty_vector :
    hexDigest (sha256 []) =
      "e3b0c44298fc1c149afbf4c8996fb92427ae41e4649b934ca495991b7852b855" := by
  decide

/-! ## Claim theorems -/

/-- C1: for every request the client signs, the `FTX-SIGN` header is the
lowercase hex encoding of HMAC-SHA256, keyed by the API secret, over the
timestamp as a decimal string, then the uppercased HTTP method, then the
path-and-query of the URL, then the raw body bytes when a body is
present (nothing appended otherwise). -/
theorem sign_header_is_hmac_hex (c : FtxClient) (ts : Nat) (method path : String)
    (params jsonBody : Option (List (String × PyValue))) :
    getHeader (signRequest c ts (buildRequest c method path params jsonBody)) "FTX-SIGN" =
      some (hexDigest (hmacSha256 (utf8Encode c.apiSecret)
        (utf8Encode (toString ts ++ method.toUpper ++
            (prepare (buildRequest c method path params jsonBody)).pathUrl) ++
          (match (prepare (buildRequest c method path params jsonBody)).body with
           | some b => if b.isEmpty then [] else b
           | none => [])))) :=
  rfl

/-- C2: the prepared request the dispatcher transmits coincides with the
one computed inside signing, and the `FTX-SIGN` header is the HMAC of
the signature payload of the very request that is sent. -/
theorem signature_covers_bytes_sent (c : FtxClient) (ts : Nat) (method path : String)
    (params jsonBody : Option (List (String × PyValue))) :
    (dispatchRequest c ts method path params jsonBody).2 =
      prepare (buildRequest c method path params jsonBody) ∧
    getHeader (dispatchRequest c ts method path params jsonBody).1 "FTX-SIGN" =
      some (hexDigest (hmacSha256 (utf8Encode c.apiSecret)
        (signaturePayload ts (dispatchRequest c ts method path params jsonBody).2))) :=
  ⟨rfl, rfl⟩

/-- C3: when the body parses to an object with a `success` field, a
false `success` raises the envelope's `error` value and a true `success`
returns the envelope's `result` value verbatim. -/
theorem envelope_unwrap (resp : Response) (data : Json) (hj : resp.json = some data) :
    (∀ e, pyGetItem data "success" = .ok (Json.bool false) →
        pyGetItem data "error" = .ok e →
        processResponse resp = .error (.exception e)) ∧
    (∀ r, pyGetItem data "success" = .ok (Json.bool true) →
        pyGetItem data "result" = .ok r →
        processResponse resp = .ok r) := by
  constructor
  · intro e hs he
    simp [processResponse, hj, hs, he, jsonTruthy]
  · intro r hs hr
    simp [processResponse, hj, hs, hr, jsonTruthy]

theorem envelope_unwrap_witness :
    processResponse ⟨200, some (Json.obj
        [("success", Json.bool false), ("error", Json.str "Invalid parameter")])⟩ =
      .error (.exception (Json.str "Invalid parameter")) ∧
    processResponse ⟨200, some (Json.obj
        [("success", Json.bool true),
         ("result", Json.arr [Json.num 1, Json.num 2, Json.num 3])])⟩ =
      .ok (Json.arr [Json.num 1, Json.num 2, Json.num 3]) :=
  ⟨(envelope_unwrap _ (Json.obj
        [("success", Json.bool false), ("error", Json.str "Invalid parameter")]) rfl).1
      _ rfl rfl,
   (envelope_unwrap _ (Json.obj
        [("success", Json.bool true),
         ("result", Json.arr [Json.num 1, Json.num 2, Json.num 3])]) rfl).2
      _ rfl rfl⟩

/-- C4: a body that fails to parse as JSON always fails the call: with
the HTTP status error when `raise_for_status` fires (status in
[400, 600)), and with the re-raised JSON decode error otherwise — the
body is never interpreted as an envelope. -/
theorem nonjson_body_always_fails (resp : Response) (h : resp.json = none) :
    (∃ e, processResponse resp = .error e) ∧
    (400 ≤ resp.statusCode ∧ resp.statusCode < 600 →
        processResponse resp = .error (.httpError resp.statusCode)) ∧
    (¬(400 ≤ resp.statusCode ∧ resp.statusCode < 600) →
        processResponse resp = .error (.valueError jsonDecodeErrMsg)) := by
  by_cases hs : 400 ≤ resp.statusCode ∧ resp.statusCode < 600
  · refine ⟨⟨.httpError resp.statusCode, ?_⟩, fun _ => ?_, fun hc => absurd hs hc⟩ <;>
      simp [processResponse, h, raiseForStatus, hs.1, hs.2]
  · refine ⟨⟨.valueError jsonDecodeErrMsg, ?_⟩, fun hc => absurd hc hs, fun _ => ?_⟩ <;>
    · simp only [processResponse, h, raiseForStatus]
      rw [if_neg (by simpa [Decidable.not_and_iff_or_not, not_lt] using hs)]

theorem nonjson_body_always_fails_witness :
    processResponse ⟨404, none⟩ = .error (.httpError 404) ∧
    processResponse ⟨200, none⟩ = .error (.valueError jsonDecodeErrMsg) :=
  ⟨(nonjson_body_always_fails ⟨404, none⟩ rfl).2.1 (by decide),
   (nonjson_body_always_fails ⟨200, none⟩ rfl).2.2 (by decide)⟩

/-- Credential validation accepts exactly the non-empty strings. -/
theorem validate_ok_iff (key secret : PyValue) :
    validateApiCredentials key secret = .ok () ↔
      isNonEmptyStr key = true ∧ isNonEmptyStr secret = true := by
  cases key <;> cases secret <;>
    simp [validateApiCredentials, pyTruthy, pyIsStr, isNonEmptyStr] <;>
    split_ifs <;> simp_all

/-- C5: construction succeeds exactly when the API key and the API
secret are both non-empty strings; every other combination (empty or
non-string key or secret) is rejected by validation. -/
theorem init_ok_iff_nonempty_strings (endp : String) (key secret : PyValue)
    (sub : Option String) :
    (∃ c, initFtxClient endp key secret sub = .ok c) ↔
      isNonEmptyStr key = true ∧ isNonEmptyStr secret = true := by
  constructor
  · rintro ⟨c, hc⟩
    by_contra hn
    have hv : validateApiCredentials key secret ≠ .ok () :=
      fun h => hn ((validate_ok_iff _ _).1 h)
    unfold initFtxClient at hc
    rcases hval : validateApiCredentials key secret with e | u
    · rw [hval] at hc; exact Except.noConfusion hc
    · exact hv (by rw [hval])
  · rintro ⟨hk, hsec⟩
    rcases key with ks | _ | _ | _ | _ <;> simp [isNonEmptyStr] at hk
    rcases secret with ss | _ | _ | _ | _ <;> simp [isNonEmptyStr] at hsec
    refine ⟨⟨endp, ks, ss, sub⟩, ?_⟩
    have hv : validateApiCredentials (.str ks) (.str ss) = .ok () :=
      (validate_ok_iff _ _).2 (by simp [isNonEmptyStr, hk, hsec])
    simp [initFtxClient, hv]

/-- C6: `get_all_futures` keeps exactly the entries with
`type == "future"`, `enabled == true`, `expired == false`, as a sublist
of the input (order and content preserved). -/
theorem get_all_futures_exact (fs : List Future) :
    (∀ f, f ∈ getAllFutures fs ↔
        f ∈ fs ∧ f.type = "future" ∧ f.enabled = true ∧ f.expired = false) ∧
    List.Sublist (getAllFutures fs) fs := by
  refine ⟨fun f => ?_, List.filter_sublist fs⟩
  simp [getAllFutures, List.mem_filter, and_assoc]

/-- The `min` fold returns the initial best or a list element, never
exceeding the key of the initial best nor of any element. -/
theorem pyFoldMin_spec (k : Future → ℚ) (xs : List Future) (best : Future) :
    (pyFoldMin k best xs = best ∨ pyFoldMin k best xs ∈ xs) ∧
    k (pyFoldMin k best xs) ≤ k best ∧
    ∀ g ∈ xs, k (pyFoldMin k best xs) ≤ k g := by
  induction xs generalizing best with
  | nil => exact ⟨Or.inl rfl, le_refl _, by simp⟩
  | cons y ys ih =>
    have hstep : pyFoldMin k best (y :: ys) =
        pyFoldMin k (if k y < k best then y else best) ys := rfl
    obtain ⟨hmem, hle, hall⟩ := ih (if k y < k best then y else best)
    by_cases hyb : k y < k best
    · rw [if_pos hyb] at hmem hle hall
      rw [hstep, if_pos hyb]
      refine ⟨?_, le_trans hle (le_of_lt hyb), fun g hg => ?_⟩
      · rcases hmem with h | h
        · exact Or.inr (by rw [h]; exact List.mem_cons_self y ys)
        · exact Or.inr (List.mem_cons_of_mem y h)
      · rcases List.mem_cons.1 hg with rfl | hg2
        · exact hle
        · exact hall g hg2
    · rw [if_neg hyb] at hmem hle hall
      rw [hstep, if_neg hyb]
      refine ⟨?_, hle, fun g hg => ?_⟩
      · rcases hmem with h | h
        · exact Or.inl h
        · exact Or.inr (List.mem_cons_of_mem y h)
      · rcases List.mem_cons.1 hg with rfl | hg2
        · exact le_trans hle (not_lt.1 hyb)
        · exact hall g hg2

/-- `min(xs, key=k)`: the empty-sequence error on `[]`, else a member
of `xs` whose key is minimal. -/
theorem pyMinBy_spec (k : Future → ℚ) (xs : List Future) :
    (xs = [] → pyMinBy k xs = .error "min() arg is an empty sequence") ∧
    (xs ≠ [] → ∃ f, pyMinBy k xs = .ok f) ∧
    (∀ f, pyMinBy k xs = .ok f → f ∈ xs ∧ ∀ g ∈ xs, k f ≤ k g) := by
  cases xs with
  | nil =>
    exact ⟨fun _ => rfl, fun h => absurd rfl h, fun f hf => Except.noConfusion hf⟩
  | cons x xs =>
    refine ⟨fun h => List.noConfusion h, fun _ => ⟨_, rfl⟩, fun f hf => ?_⟩
    have hfold : pyMinBy k (x :: xs) = .ok (pyFoldMin k x xs) := rfl
    rw [hfold] at hf
    obtain rfl := (Except.ok.inj hf).symm
    obtain ⟨hmem, hbest, hall⟩ := pyFoldMin_spec k xs x
    constructor
    · rcases hmem with h | h
      · rw [h]; exact List.mem_cons_self x xs
      · exact List.mem_cons_of_mem x h
    · intro g hg
      rcases List.mem_cons.1 hg with rfl | hg2
      · exact hbest
      · exact hall g hg2

/-- C7: `get_next_underlying_future` fails with Python's empty-`min`
`ValueError` exactly when the filtered set is empty, and otherwise
returns a member of the filtered set of minimum expiry. -/
theorem next_future_is_min_expiry (u : String) (fs : List Future) :
    (getAllUnderlyingFutures u fs = [] →
        getNextUnderlyingFuture u fs = .error "min() arg is an empty sequence") ∧
    (getAllUnderlyingFutures u fs ≠ [] →
        ∃ f, getNextUnderlyingFuture u fs = .ok f) ∧
    (∀ f, getNextUnderlyingFuture u fs = .ok f →
        f ∈ getAllUnderlyingFutures u fs ∧
        ∀ g ∈ getAllUnderlyingFutures u fs, f.expiry ≤ g.expiry) :=
  pyMinBy_spec (fun f => f.expiry) (getAllUnderlyingFutures u fs)

theorem next_future_is_min_expiry_witness :
    btcFuture "BTC-0330" 1000 ∈ getAllUnderlyingFutures "BTC" btcFuturesExample ∧
    ∀ g ∈ getAllUnderlyingFutures "BTC" btcFuturesExample,
      (btcFuture "BTC-0330" 1000).expiry ≤ g.expiry :=
  (next_future_is_min_expiry "BTC" btcFuturesExample).2.2 (btcFuture "BTC-0330" 1000) rfl

/-- C8: `place_order` maps each named parameter onto the payload key of
the same meaning, optional parameters left unset appearing as `None`
(serialized `null`), never omitted; with only market, side and size
given, the defaults produce `price=null`, `type="market"`,
`reduceOnly=false`, `ioc=false`, `postOnly=false`, `clientId=null`. -/
theorem place_order_payload_verbatim (market side : String) (size : ℚ) :
    ((placeOrderPayloadDefaults market side size).lookup "market" = some (.str market)) ∧
    ((placeOrderPayloadDefaults market side size).lookup "side" = some (.str side)) ∧
    ((placeOrderPayloadDefaults market side size).lookup "price" = some .noneV) ∧
    ((placeOrderPayloadDefaults market side size).lookup "size" = some (.float size)) ∧
    ((placeOrderPayloadDefaults market side size).lookup "type" = some (.str "market")) ∧
    ((placeOrderPayloadDefaults market side size).lookup "reduceOnly" = some (.bool false)) ∧
    ((placeOrderPayloadDefaults market side size).lookup "ioc" = some (.bool false)) ∧
    ((placeOrderPayloadDefaults market side size).lookup "postOnly" = some (.bool false)) ∧
    ((placeOrderPayloadDefaults market side size).lookup "clientId" = some .noneV) ∧
    jsonDumpsObj (placeOrderPayloadDefaults "BTC-PERP" "buy" (mkRat 3 2)) =
      "\x7b\"market\": \"BTC-PERP\", \"side\": \"buy\", \"price\": null, \"size\": 1.5, \"type\": \"market\", \"reduceOnly\": false, \"ioc\": false, \"postOnly\": false, \"clientId\": null\x7d" :=
  ⟨rfl, rfl, rfl, rfl, rfl, rfl, rfl, rfl, rfl, by decide⟩

/-! ### Percent-encoding round trip -/

theorem charOfNat_toNat_byte : ∀ b, b < 256 → (Char.ofNat b).toNat = b := by decide

theorem quoteSafe_not_percent : ∀ b, b < 256 → quoteSafeByte b = true →
    Char.ofNat b ≠ '%' := by decide

theorem hexVal_hexUpperChar : ∀ n, n < 16 → hexVal (hexUpperChar n) = some n := by decide

/-- Decoding consumes one encoded byte and continues. -/
theorem unquote_quoteByte (b : Nat) (hb : b < 256) (cs : List Char) (fuel : Nat) :
    unquoteCharsAux (fuel + 1) (quoteByte quoteSafeByte b ++ cs) =
      b :: unquoteCharsAux fuel cs := by
  by_cases hsafe : quoteSafeByte b = true
  · rw [quoteByte, if_pos hsafe]
    show unquoteCharsAux (fuel + 1) (Char.ofNat b :: cs) = _
    simp only [unquoteCharsAux]
    rw [if_neg (quoteSafe_not_percent b hb hsafe), charOfNat_toNat_byte b hb]
  · rw [quoteByte, if_neg hsafe]
    show unquoteCharsAux (fuel + 1)
        ('%' :: hexUpperChar (b / 16) :: hexUpperChar (b % 16) :: cs) = _
    simp only [unquoteCharsAux, if_pos]
    rw [hexVal_hexUpperChar (b / 16) (by omega), hexVal_hexUpperChar (b % 16) (by omega)]
    simp [Nat.div_add_mod]

/-- Percent-encoding does not shrink a byte string. -/
theorem length_le_quoteChars (bs : List Nat) : bs.length ≤ (quoteChars bs).length := by
  induction bs with
  | nil => simp [quoteChars]
  | cons b bs ih =>
    have hstep : quoteChars (b :: bs) = quoteByte quoteSafeByte b ++ quoteChars bs := rfl
    have hq : 1 ≤ (quoteByte quoteSafeByte b).length := by
      rw [quoteByte]; split_ifs <;> simp
    rw [hstep]
    simp only [List.length_append, List.length_cons]
    omega

/-- With enough fuel, decoding inverts encoding byte by byte. -/
theorem unquote_quote_aux (bs : List Nat) : ∀ fuel, bs.length ≤ fuel →
    (∀ b ∈ bs, b < 256) → unquoteCharsAux fuel (quoteChars bs) = bs := by
  induction bs with
  | nil =>
    intro fuel _ _
    cases fuel <;> simp [quoteChars, unquoteCharsAux]
  | cons b bs ih =>
    intro fuel hlen hbound
    cases fuel with
    | zero => simp at hlen
    | succ f =>
      have hstep : quoteChars (b :: bs) = quoteByte quoteSafeByte b ++ quoteChars bs := rfl
      rw [hstep, unquote_quoteByte b (hbound b (List.mem_cons_self b bs)) _ f,
        ih f (by simp at hlen; omega)
          (fun x hx => hbound x (List.mem_cons_of_mem b hx))]

/-- `unquote (quote bytes) = bytes` for genuine bytes. -/
theorem unquote_quote (bs : List Nat) (h : ∀ b ∈ bs, b < 256) :
    unquoteChars (quoteChars bs) = bs :=
  unquote_quote_aux bs _ (length_le_quoteChars bs) h

/-- UTF-8 encoding of a valid code point yields bytes. -/
theorem utf8EncodeCp_bytes_lt (n : Nat) (hn : n < 1114112) :
    ∀ b ∈ utf8EncodeCp n, b < 256 := by
  intro b hb
  rw [utf8EncodeCp] at hb
  split_ifs at hb <;> simp_all <;> omega

/-- UTF-8 encoding of a string yields bytes. -/
theorem utf8Encode_bytes_lt (s : String) : ∀ b ∈ utf8Encode s, b < 256 := by
  intro b hb
  rw [utf8Encode] at hb
  rw [List.mem_flatMap] at hb
  obtain ⟨c, _, hbc⟩ := hb
  refine utf8EncodeCp_bytes_lt c.toNat ?_ b hbc
  rcases c.valid with h | ⟨_, h2⟩
  · have : c.val.toNat < 55296 := h
    show c.val.toNat < 1114112
    omega
  · exact h2

/-- C9: with a truthy configured subaccount name, the signed request
carries an `FTX-SUBACCOUNT` header equal to the percent-encoding of the
name, and percent-decoding that header value yields the name's exact
UTF-8 bytes back. -/
theorem subaccount_header_roundtrip (c : FtxClient) (nm : String) (ts : Nat)
    (method path : String) (params jsonBody : Option (List (String × PyValue)))
    (hsub : c.subaccountName = some nm) (hne : nm ≠ "") :
    getHeader (signRequest c ts (buildRequest c method path params jsonBody))
        "FTX-SUBACCOUNT" = some (pyQuote nm) ∧
    unquoteChars (pyQuote nm).data = utf8Encode nm := by
  constructor
  · simp only [signRequest, buildRequest, getHeader, hsub]
    rw [if_neg hne]
    rfl
  · exact unquote_quote (utf8Encode nm) (utf8Encode_bytes_lt nm)

theorem subaccount_header_roundtrip_witness :
    getHeader (signRequest ⟨"https://ftx.com/api/", "key", "secret", some "my subé"⟩
        1588591511721
        (buildRequest ⟨"https://ftx.com/api/", "key", "secret", some "my subé"⟩
          "GET" "futures" none none)) "FTX-SUBACCOUNT" = some (pyQuote "my subé") ∧
    unquoteChars (pyQuote "my subé").data = utf8Encode "my subé" :=
  subaccount_header_roundtrip ⟨"https://ftx.com/api/", "key", "secret", some "my subé"⟩
    "my subé" 1588591511721 "GET" "futures" none none rfl (by decide)

/-- Sanity: the percent-encoded form of a name with a space and a
non-ASCII character. -/
theorem pyQuote_example : pyQuote "my subé" = "my%20sub%C3%A9" := by decide

/-- C10: `get_order_history()` with no arguments builds the parameter
dict with `orderType` set to the string `"market"` and the unset
`market`, `side`, `start_time`, `end_time` passed through as `None`
under exactly those keys; on the wire the query string sent is
`orderType=market`. -/
theorem order_history_defaults_query :
    getOrderHistoryParamsDefaults =
      [("market", PyValue.noneV), ("side", PyValue.noneV),
       ("orderType", PyValue.str "market"),
       ("start_time", PyValue.noneV), ("end_time", PyValue.noneV)] ∧
    encodeQueryParams getOrderHistoryParamsDefaults = "orderType=market" ∧
    (prepare (buildRequest ⟨"https://ftx.com/api/", "key", "secret", none⟩ "GET"
        "orders/history" (some getOrderHistoryParamsDefaults) none)).pathUrl =
      "/api/orders/history?orderType=market" :=
  ⟨rfl, by decide, by decide⟩

end Ftx
